import Mathlib

/-!
Verification development for the trajectory-generation core of
`pilz_industrial_motion` (packages `pilz_trajectory_generation` /
`pilz_extensions`).

The C++ sources are shallowly embedded over exact rational arithmetic
(`ℚ` stands in for `double`; all the constants appearing in the code are
exactly representable).  Joint-indexed `std::map<std::string, double>`
values are embedded as parallel lists ordered by the (sorted) joint names;
the generator code always produces and consumes maps over the same key set
(the active joints of the planning group), so positional lists are a
faithful rendering.  External MoveIt/KDL capabilities (robot model, IK
solver, Cartesian trajectory sampling) are abstracted as function-typed
parameters, exactly at the call boundaries the code uses.
-/

namespace Pilz

/-- A per-joint state vector (one rational per joint of the group). -/
abbrev Joints := List ℚ

/-- Embedding of `pilz_extensions::JointLimit` as consumed by
`verifySampleJointLimits` via `JointLimitsContainer::getLimit`:
`max_velocity`, and acceleration/deceleration bounds with their
`has_*_limits` flags. -/
structure JointLimits where
  max_velocity : ℚ
  has_acceleration_limits : Bool
  max_acceleration : ℚ
  has_deceleration_limits : Bool
  max_deceleration : ℚ
deriving DecidableEq, Repr, Inhabited

/-- The constant `epsilon = 10e-6` of `trajectory_functions.cpp`
(both in `verifySampleJointLimits`, line 138, and in the time-sample
loop of `generateJointTrajectory`, line 210).  Note `10e-6` is the
rational `1/100000 = 1e-5`, not `1e-6`. -/
def sampleEpsilon : ℚ := 10 / 10 ^ 6

/-- Modelled from the spec: `JointLimitsContainer::verifyVelocityLimit`
(declared in `joint_limits_container.h`, body not under `src/`): per
spec section 4.4 the check "fail[s] if |velocity| exceeds the joint's
max velocity". -/
def verifyVelocityLimit (lim : JointLimits) (velocity : ℚ) : Bool :=
  decide (|velocity| ≤ lim.max_velocity)

/-- The body of the per-joint loop of `pilz::verifySampleJointLimits`
(`trajectory_functions.cpp` lines 147-189): recompute the current
velocity by finite difference, check the velocity limit, then compute
the acceleration and check it against `fabs(max_acceleration)`
(accelerating case, `|velocity_last| <= |velocity_current|`) or
`fabs(max_deceleration)` (decelerating case), each only when the
corresponding `has_*_limits` flag is set. -/
def checkSampleJoint (position_last velocity_last position_current : ℚ)
    (duration_last duration_current : ℚ) (lim : JointLimits) : Bool :=
  let velocity_current := (position_current - position_last) / duration_current
  if verifyVelocityLimit lim velocity_current = false then false
  else
    let acceleration_current :=
      (velocity_current - velocity_last) / (duration_last + duration_current) * 2
    if |velocity_last| ≤ |velocity_current| then
      if lim.has_acceleration_limits = true ∧
          |acceleration_current| > |lim.max_acceleration| then false
      else true
    else
      if lim.has_deceleration_limits = true ∧
          |acceleration_current| > |lim.max_deceleration| then false
      else true

/-- The per-joint loop of `pilz::verifySampleJointLimits`: every joint of
the current sample must pass `checkSampleJoint` (the C++ `for` loop over
`position_current` with early `return false`). -/
def perJointLimitChecks (position_last velocity_last position_current : Joints)
    (duration_last duration_current : ℚ) (joint_limits : List JointLimits) : Bool :=
  (((position_last.zip velocity_last).zip position_current).zip joint_limits).all
    fun x => checkSampleJoint x.1.1.1 x.1.1.2 x.1.2 duration_last duration_current x.2

/-- Embedding of `pilz::verifySampleJointLimits`
(`trajectory_functions.cpp` lines 131-192): refuse outright when
`duration_current <= epsilon` (`epsilon = 10e-6`), otherwise run the
per-joint velocity/acceleration/deceleration checks. -/
def verifySampleJointLimits (position_last velocity_last position_current : Joints)
    (duration_last duration_current : ℚ) (joint_limits : List JointLimits) : Bool :=
  if duration_current ≤ sampleEpsilon then false
  else perJointLimitChecks position_last velocity_last position_current
        duration_last duration_current joint_limits

/-- `TrajectoryGenerator::MIN_SCALING_FACTOR` (`trajectory_generator.h` line 230). -/
def MIN_SCALING_FACTOR : ℚ := 1 / 10 ^ 4

/-- `TrajectoryGenerator::MAX_SCALING_FACTOR` (`trajectory_generator.h` line 231). -/
def MAX_SCALING_FACTOR : ℚ := 1

/-- Embedding of `TrajectoryGenerator::isScalingFactorValid`
(`trajectory_generator.h` lines 235-238):
`scaling_factor > MIN_SCALING_FACTOR && scaling_factor <= MAX_SCALING_FACTOR`. -/
def isScalingFactorValid (scaling_factor : ℚ) : Bool :=
  decide (scaling_factor > MIN_SCALING_FACTOR) &&
    decide (scaling_factor ≤ MAX_SCALING_FACTOR)

/-- Outcome of the scaling-factor part of request validation. -/
inductive ScalingCheckResult where
  | ok
  | velocityScalingIncorrect
  | accelerationScalingIncorrect
deriving DecidableEq, Repr

/-- Modelled from the spec: `TrajectoryGenerator::checkVelocityScaling`,
`checkAccelerationScaling` and their invocation at the start of
`validateRequest` (bodies not under `src/`): per spec sections 4.1 and 7,
a scaling factor outside `(MIN_SCALING_FACTOR, MAX_SCALING_FACTOR]` is
rejected with the corresponding scaling-incorrect error kind before any
sampling work begins; both checks gate on `isScalingFactorValid`. -/
def validateScalingFactors (velocity_scaling acceleration_scaling : ℚ) :
    ScalingCheckResult :=
  if isScalingFactorValid velocity_scaling = false then
    ScalingCheckResult.velocityScalingIncorrect
  else if isScalingFactorValid acceleration_scaling = false then
    ScalingCheckResult.accelerationScalingIncorrect
  else ScalingCheckResult.ok

end Pilz

namespace Pilz

/-- One robot state at a waypoint, as consumed by `pilz::isRobotStateEqual`:
the joint-group position, velocity and acceleration vectors obtained by
`copyJointGroupPositions` / `...Velocities` / `...Accelerations`. -/
structure RobotState where
  positions : Joints
  velocities : Joints
  accelerations : Joints
deriving DecidableEq, Repr, Inhabited

/-- Squared Euclidean norm of the difference of two vectors.  The C++
compares `(v1 - v2).norm() > epsilon`; over nonnegative `epsilon` this is
equivalent to `‖v1 - v2‖^2 > epsilon^2`, which stays inside ℚ. -/
def diffNormSq (v1 v2 : Joints) : ℚ :=
  ((v1.zip v2).map fun x => (x.1 - x.2) ^ 2).sum

/-- Embedding of `pilz::isRobotStateEqual` (`trajectory_functions.cpp`
lines 473-515): positions, then velocities, then accelerations of the two
states are compared; any difference-norm above `epsilon` yields `false`.
Norm comparisons are encoded by their squares (see `diffNormSq`). -/
def isRobotStateEqual (state1 state2 : RobotState) (epsilon : ℚ) : Bool :=
  if diffNormSq state1.positions state2.positions > epsilon ^ 2 then false
  else if diffNormSq state1.velocities state2.velocities > epsilon ^ 2 then false
  else if diffNormSq state1.accelerations state2.accelerations > epsilon ^ 2 then false
  else true

/-- Modelled from the spec: `ROBOT_STATE_EQUALITY_EPSILON`
(`trajectory_appender.h`, not under `src/`): the spec fixes the
appender's waypoint-equality tolerance at `1e-8`. -/
def ROBOT_STATE_EQUALITY_EPSILON : ℚ := 1 / 10 ^ 8

/-- A `robot_trajectory::RobotTrajectory` as consumed by the appender and
the sampling-time reconciler: the ordered waypoints plus the parallel
`duration_from_previous_` list (`getWayPointDurationFromPrevious i` is
entry `i`). -/
structure RobotTrajectory where
  waypoints : List RobotState
  durations_from_previous : List ℚ
deriving Repr

/-- `RobotTrajectory::getWayPointDurationFromPrevious`. -/
def getWayPointDurationFromPrevious (traj : RobotTrajectory) (i : Nat) : ℚ :=
  traj.durations_from_previous.getD i 0

/-- Embedding of `TrajectoryAppender::merge` (`trajectory_appender.cpp`
lines 25-41): when the accumulator is non-empty and its last waypoint
equals the source's first waypoint (within
`ROBOT_STATE_EQUALITY_EPSILON`), the source is spliced in starting from
its second waypoint (`addSuffixWayPoint` for `i = 1 ..`); otherwise
`result.append(source, 0.0)` copies every source waypoint (the `0.0`
added to the first copied duration is the identity). -/
def TrajectoryAppender.merge (result source : RobotTrajectory) : RobotTrajectory :=
  let append_traj_first := source.waypoints.headD default
  if result.waypoints.isEmpty = false ∧
      isRobotStateEqual (result.waypoints.getLastD default) append_traj_first
        ROBOT_STATE_EQUALITY_EPSILON = true then
    { waypoints := result.waypoints ++ source.waypoints.drop 1
      durations_from_previous :=
        result.durations_from_previous ++ source.durations_from_previous.drop 1 }
  else
    { waypoints := result.waypoints ++ source.waypoints
      durations_from_previous :=
        result.durations_from_previous ++ source.durations_from_previous }

/-- Embedding of `pilz::determineAndCheckSamplingTime`
(`trajectory_functions.cpp` lines 423-471).  `n1`/`n2` are the waypoint
counts minus one (`size_t`; the model uses `Nat` subtraction, which
agrees with `size_t` for non-empty trajectories — all theorems below
assume at least one waypoint).  The C++ writes into the in-out parameter
`sampling_time`; the model returns the pair (result, final value of
`sampling_time`), taking the incoming value as `sampling_time0`. -/
def determineAndCheckSamplingTime (first_trajectory second_trajectory : RobotTrajectory)
    (epsilon : ℚ) (sampling_time0 : ℚ) : Bool × ℚ :=
  let n1 := first_trajectory.waypoints.length - 1
  let n2 := second_trajectory.waypoints.length - 1
  if n1 < 2 ∧ n2 < 2 then (false, sampling_time0)
  else
    let sampling_time :=
      if n1 ≥ 2 then getWayPointDurationFromPrevious first_trajectory 1
      else getWayPointDurationFromPrevious second_trajectory 1
    let ok := (List.range' 1 (max n1 n2 - 1)).all fun i =>
      (!(decide (i < n1)) ||
        decide (|sampling_time - getWayPointDurationFromPrevious first_trajectory i| ≤ epsilon)) &&
      (!(decide (i < n2)) ||
        decide (|sampling_time - getWayPointDurationFromPrevious second_trajectory i| ≤ epsilon))
    (ok, sampling_time)

/-- The slice of `moveit::core::RobotModel` that `pilz::computePoseIK`
touches: group existence, IK-solver availability for a (group, link)
pair, the model frame, and the actual `RobotState::setFromIK` solve
(abstracted; it receives group, link, pose, timeout and the seed the
code loads into the state, and returns the active-joint solution on
success). -/
structure RobotModel (Pose : Type) where
  hasJointModelGroup : String → Bool
  canSetStateFromIK : String → String → Bool
  modelFrame : String
  setFromIK : String → String → Pose → ℚ → Joints → Option Joints

/-- Embedding of `pilz::computePoseIK` (`trajectory_functions.cpp` lines
22-80): three guard checks (unknown group, no IK solver for the link,
frame different from the model frame) each return failure before the
solve; otherwise the result of `setFromIK` is returned (`some` = the
copied solution, `none` = failure). -/
def computePoseIK {Pose : Type} (robot_model : RobotModel Pose)
    (group_name link_name : String) (pose : Pose) (frame_id : String)
    (seed : Joints) (timeout : ℚ) : Option Joints :=
  if robot_model.hasJointModelGroup group_name = false then none
  else if robot_model.canSetStateFromIK group_name link_name = false then none
  else if frame_id ≠ robot_model.modelFrame then none
  else robot_model.setFromIK group_name link_name pose timeout seed

end Pilz

namespace Pilz

/-- MoveIt error codes used by `generateJointTrajectory`. -/
inductive MoveItErrorCode where
  | SUCCESS
  | NO_IK_SOLUTION
  | PLANNING_FAILED
deriving DecidableEq, Repr

/-- One `trajectory_msgs::JointTrajectoryPoint`: time from start plus the
parallel per-joint position/velocity/acceleration arrays. -/
structure JointTrajectoryPoint where
  time_from_start : ℚ
  positions : Joints
  velocities : Joints
  accelerations : Joints
deriving DecidableEq, Repr, Inhabited

/-- The time-sample loop of the KDL overload of
`pilz::generateJointTrajectory` (`trajectory_functions.cpp` lines
212-215): `for (t = 0.0; t < Duration() - epsilon; t += sampling_time)`.
The `fuel` argument merely bounds the recursion; `timeSamples` passes
enough fuel that the loop always stops because the guard fails, never
because fuel runs out (`timeSamplesLoop_spec` below proves the bound). -/
def timeSamplesLoop (duration sampling_time : ℚ) : Nat → ℚ → List ℚ
  | 0, _ => []
  | fuel + 1, t_sample =>
    if t_sample < duration - sampleEpsilon then
      t_sample :: timeSamplesLoop duration sampling_time fuel (t_sample + sampling_time)
    else []

/-- The full time-sample sequence of the KDL overload
(`trajectory_functions.cpp` lines 210-216): the loop samples starting at
`0.0` with step `sampling_time`, then `Duration()` is pushed as the last
sample (`epsilon` keeps the loop from emitting a duplicate of it). -/
def timeSamples (duration sampling_time : ℚ) : List ℚ :=
  timeSamplesLoop duration sampling_time
    ((⌈(duration - sampleEpsilon) / sampling_time⌉).toNat + 1) 0 ++ [duration]

/-- The interior-sample finite-difference computation of the KDL overload
(`trajectory_functions.cpp` lines 290-296), per joint:
`distance = ik_solution - ik_solution_last`,
`joint_acceleration = 2*(distance - joint_velocity_last*duration)/duration^2`,
`joint_velocity = joint_velocity_last + joint_acceleration*duration`.
Returns the (velocity, acceleration) pair per joint. -/
def interiorVelAcc (ik_solution ik_solution_last joint_velocity_last : Joints)
    (duration : ℚ) : List (ℚ × ℚ) :=
  (ik_solution.zip (ik_solution_last.zip joint_velocity_last)).map fun x =>
    let distance := x.1 - x.2.1
    let joint_acceleration := 2 * (distance - x.2.2 * duration) / duration ^ 2
    (x.2.2 + joint_acceleration * duration, joint_acceleration)

/-- The common per-sample result update of both `generateJointTrajectory`
overloads: when the remainder of the loop succeeds, the current point is
prepended (`joint_trajectory.points.push_back`); when it fails, all
points are discarded (`joint_trajectory.points.clear()`) and the error
code is propagated. -/
def genStep (point : JointTrajectoryPoint)
    (r : Bool × List JointTrajectoryPoint × MoveItErrorCode) :
    Bool × List JointTrajectoryPoint × MoveItErrorCode :=
  match r with
  | (true, points, _) => (true, point :: points, MoveItErrorCode.SUCCESS)
  | (false, _, ec) => (false, [], ec)

/-- The main sampling loop of the KDL overload of
`pilz::generateJointTrajectory` (`trajectory_functions.cpp` lines
227-309), one recursive step per remaining time sample.  `ik t seed`
abstracts `computePoseIK` applied to `trajectory.Pos(t)` with the
previous solution as seed; `size_one` records `time_samples.size()==1`;
`is_first` records `time_iter == time_samples.begin()` and `t_prev` the
previous sample (used only for the final, possibly shorter interval).
An IK failure clears all points and returns `NO_IK_SOLUTION`; a limits
violation (checked for every non-first sample, with `sampling_time`
passed as the last-interval duration, line 262) clears all points and
returns `PLANNING_FAILED`; interior samples store the finite-difference
velocity/acceleration of `interiorVelAcc` while the first and last
sample store zeros (lines 288-303). -/
def generateJointTrajectoryKDLLoop (ik : ℚ → Joints → Option Joints)
    (joint_limits : List JointLimits) (sampling_time : ℚ) (size_one : Bool) :
    Bool → ℚ → Joints → Joints → List ℚ →
    Bool × List JointTrajectoryPoint × MoveItErrorCode
  | _, _, _, _, [] => (true, [], MoveItErrorCode.SUCCESS)
  | is_first, t_prev, ik_solution_last, joint_velocity_last, t_sample :: rest =>
    match ik t_sample ik_solution_last with
    | none => (false, [], MoveItErrorCode.NO_IK_SOLUTION)
    | some ik_solution =>
      let duration_current_sample : ℚ :=
        if size_one = true then t_sample
        else if rest.isEmpty = true then t_sample - t_prev
        else sampling_time
      if is_first = false ∧
          verifySampleJointLimits ik_solution_last joint_velocity_last ik_solution
            sampling_time duration_current_sample joint_limits = false then
        (false, [], MoveItErrorCode.PLANNING_FAILED)
      else if is_first = false ∧ rest.isEmpty = false then
        let va := interiorVelAcc ik_solution ik_solution_last joint_velocity_last
                    duration_current_sample
        let point : JointTrajectoryPoint :=
          { time_from_start := t_sample, positions := ik_solution
            velocities := va.map Prod.fst, accelerations := va.map Prod.snd }
        genStep point (generateJointTrajectoryKDLLoop ik joint_limits sampling_time
          size_one false t_sample ik_solution (va.map Prod.fst) rest)
      else
        let zeros := ik_solution.map fun _ => (0 : ℚ)
        let point : JointTrajectoryPoint :=
          { time_from_start := t_sample, positions := ik_solution
            velocities := zeros, accelerations := zeros }
        genStep point (generateJointTrajectoryKDLLoop ik joint_limits sampling_time
          size_one false t_sample ik_solution zeros rest)

/-- Embedding of the KDL overload of `pilz::generateJointTrajectory`
(`trajectory_functions.cpp` lines 194-318): build the time samples, then
run the sampling loop with the start state as first IK seed and zero
initial joint velocities (lines 220-225).  The result models the
returned `bool` together with the `joint_trajectory.points` and
`error_code` out-parameters (the callers pass a fresh, empty trajectory
in). -/
def generateJointTrajectoryKDL (ik : ℚ → Joints → Option Joints)
    (joint_limits : List JointLimits) (duration sampling_time : ℚ)
    (initial_joint_position : Joints) :
    Bool × List JointTrajectoryPoint × MoveItErrorCode :=
  let time_samples := timeSamples duration sampling_time
  generateJointTrajectoryKDLLoop ik joint_limits sampling_time
    (time_samples.length == 1) true 0 initial_joint_position
    (initial_joint_position.map fun _ => 0) time_samples

/-- One point of a `pilz::CartesianTrajectory`: a pose (abstract) plus
its time from start. -/
structure CartesianTrajectoryPoint (Pose : Type) where
  pose : Pose
  time_from_start : ℚ

/-- The per-waypoint finite-difference computation of the
CartesianTrajectory overload (`trajectory_functions.cpp` lines 395-404),
per joint: `joint_velocity = (ik_solution - ik_solution_last)/duration_current`,
acceleration `= (joint_velocity - joint_velocity_last)/(duration_current
+ duration_last)*2`.  Returns the (velocity, acceleration) pair per
joint. -/
def cartVelAcc (ik_solution ik_solution_last joint_velocity_last : Joints)
    (duration_current duration_last : ℚ) : List (ℚ × ℚ) :=
  (ik_solution.zip (ik_solution_last.zip joint_velocity_last)).map fun x =>
    let joint_velocity := (x.1 - x.2.1) / duration_current
    (joint_velocity,
      (joint_velocity - x.2.2) / (duration_current + duration_last) * 2)

/-- The main loop of the CartesianTrajectory overload of
`pilz::generateJointTrajectory` (`trajectory_functions.cpp` lines
345-410), one recursive step per remaining Cartesian waypoint.
`ik pose seed` abstracts `computePoseIK`; on the first waypoint
(`i == 0`) the current duration is its absolute time-from-start and the
last duration is set equal to it (lines 364-368); the joint limits are
verified for every waypoint, first included; every waypoint (no
first/last exception) stores the `cartVelAcc` finite differences.
Failures clear all points, exactly as in the KDL overload. -/
def generateJointTrajectoryCartLoop {Pose : Type} (ik : Pose → Joints → Option Joints)
    (joint_limits : List JointLimits) :
    Bool → ℚ → ℚ → Joints → Joints → List (CartesianTrajectoryPoint Pose) →
    Bool × List JointTrajectoryPoint × MoveItErrorCode
  | _, _, _, _, _, [] => (true, [], MoveItErrorCode.SUCCESS)
  | is_first, t_prev, duration_last, ik_solution_last, joint_velocity_last, p :: rest =>
    match ik p.pose ik_solution_last with
    | none => (false, [], MoveItErrorCode.NO_IK_SOLUTION)
    | some ik_solution =>
      let duration_current : ℚ :=
        if is_first = true then p.time_from_start else p.time_from_start - t_prev
      let duration_last' : ℚ :=
        if is_first = true then duration_current else duration_last
      if verifySampleJointLimits ik_solution_last joint_velocity_last ik_solution
          duration_last' duration_current joint_limits = false then
        (false, [], MoveItErrorCode.PLANNING_FAILED)
      else
        let va := cartVelAcc ik_solution ik_solution_last joint_velocity_last
                    duration_current duration_last'
        let waypoint_joint : JointTrajectoryPoint :=
          { time_from_start := p.time_from_start, positions := ik_solution
            velocities := va.map Prod.fst, accelerations := va.map Prod.snd }
        genStep waypoint_joint
          (generateJointTrajectoryCartLoop ik joint_limits false p.time_from_start
            duration_current ik_solution (va.map Prod.fst) rest)

/-- Embedding of the CartesianTrajectory overload of
`pilz::generateJointTrajectory` (`trajectory_functions.cpp` lines
320-420): run the waypoint loop seeded with the initial joint position
and the caller-supplied initial joint velocity (lines 335-336). -/
def generateJointTrajectoryCart {Pose : Type} (ik : Pose → Joints → Option Joints)
    (joint_limits : List JointLimits)
    (trajectory : List (CartesianTrajectoryPoint Pose))
    (initial_joint_position initial_joint_velocity : Joints) :
    Bool × List JointTrajectoryPoint × MoveItErrorCode :=
  generateJointTrajectoryCartLoop ik joint_limits true 0 0
    initial_joint_position initial_joint_velocity trajectory

end Pilz

namespace Pilz

/-- Holds when every three consecutive elements of the list satisfy `R`. -/
def Triplewise {α : Type} (R : α → α → α → Prop) : List α → Prop
  | a :: b :: c :: rest => R a b c ∧ Triplewise R (b :: c :: rest)
  | _ => True

/-- The finite-difference relation the KDL overload establishes between an
interior trajectory point `q` and its predecessor `p`: `q` stores exactly
the `interiorVelAcc` velocities/accelerations computed from its own
positions, `p`'s positions and velocities, and the nominal sampling time
(which is the interval duration for every non-final sample). -/
def kdlFiniteDiffRel (sampling_time : ℚ) (p q : JointTrajectoryPoint) : Prop :=
  q.velocities =
    (interiorVelAcc q.positions p.positions p.velocities sampling_time).map Prod.fst ∧
  q.accelerations =
    (interiorVelAcc q.positions p.positions p.velocities sampling_time).map Prod.snd

/-- The finite-difference relation the CartesianTrajectory overload
establishes between a trajectory point `r`, its predecessor `q` and the
point `p` before that: `r` stores exactly the `cartVelAcc`
velocities/accelerations with current duration `r.time - q.time` and
previous duration `q.time - p.time`. -/
def cartFiniteDiffRel (p q r : JointTrajectoryPoint) : Prop :=
  r.velocities =
    (cartVelAcc r.positions q.positions q.velocities
      (r.time_from_start - q.time_from_start)
      (q.time_from_start - p.time_from_start)).map Prod.fst ∧
  r.accelerations =
    (cartVelAcc r.positions q.positions q.velocities
      (r.time_from_start - q.time_from_start)
      (q.time_from_start - p.time_from_start)).map Prod.snd

/-- The start state of the CartesianTrajectory overload viewed as a
virtual waypoint at time `0`: initial joint positions and the
caller-supplied initial joint velocities. -/
def cartStartPoint (initial_joint_position initial_joint_velocity : Joints) :
    JointTrajectoryPoint :=
  { time_from_start := 0, positions := initial_joint_position
    velocities := initial_joint_velocity
    accelerations := initial_joint_velocity.map fun _ => 0 }

/-- Failure atomicity of a `generateJointTrajectory` result: on failure
the point list is empty and the error code is `NO_IK_SOLUTION` or
`PLANNING_FAILED`; on success the error code is `SUCCESS`. -/
def FailureAtomic (r : Bool × List JointTrajectoryPoint × MoveItErrorCode) : Prop :=
  (r.1 = false →
    r.2.1 = [] ∧ (r.2.2 = MoveItErrorCode.NO_IK_SOLUTION ∨
      r.2.2 = MoveItErrorCode.PLANNING_FAILED)) ∧
  (r.1 = true → r.2.2 = MoveItErrorCode.SUCCESS)

end Pilz

namespace Pilz

/-- Counterexample to claim C3 as stated: at a current-interval duration
of `5e-6` — strictly above the claimed epsilon `1e-6` — and with an empty
joint set (so every per-joint check trivially passes),
`verifySampleJointLimits` nevertheless returns failure: the code's
threshold constant is `10e-6 = 1e-5`, not `1e-6`. -/
theorem claim_C3_counterexample :
    ¬ ((1 : ℚ) / 200000 ≤ 1 / 10 ^ 6) ∧
    perJointLimitChecks [] [] [] 1 (1 / 200000) [] = true ∧
    verifySampleJointLimits [] [] [] 1 (1 / 200000) [] = false := by
  refine ⟨by norm_num, by with_unfolding_all decide, by with_unfolding_all decide⟩

/-- Claim C3 (amended: the code's minimum epsilon is `10e-6 = 1e-5`, not
`1e-6`): `verifySampleJointLimits` returns failure — independently of any
joint data — exactly when the current-interval duration is at or below
`sampleEpsilon`; for every current-interval duration strictly above it,
the result is exactly that of the per-joint limit checks. -/
theorem claim_C3 (position_last velocity_last position_current : Joints)
    (duration_last duration_current : ℚ) (joint_limits : List JointLimits) :
    (duration_current ≤ sampleEpsilon →
      verifySampleJointLimits position_last velocity_last position_current
          duration_last duration_current joint_limits = false ∧
      ∀ jl' : List JointLimits,
        verifySampleJointLimits position_last velocity_last position_current
            duration_last duration_current joint_limits
          = verifySampleJointLimits position_last velocity_last position_current
              duration_last duration_current jl') ∧
    (sampleEpsilon < duration_current →
      verifySampleJointLimits position_last velocity_last position_current
          duration_last duration_current joint_limits
        = perJointLimitChecks position_last velocity_last position_current
            duration_last duration_current joint_limits) := by
  constructor
  · intro h
    refine ⟨by simp [verifySampleJointLimits, h], fun jl' => ?_⟩
    simp [verifySampleJointLimits, h]
  · intro h
    simp [verifySampleJointLimits, not_le.mpr h]

/-- Witness for claim C3 at concrete inputs: duration `5e-6` is rejected,
and duration `1` is handed to the per-joint checks. -/
theorem claim_C3_witness :
    verifySampleJointLimits [] [] [] 1 (1 / 200000) [] = false ∧
    verifySampleJointLimits [0] [0] [0] 1 1 []
      = perJointLimitChecks [0] [0] [0] 1 1 [] :=
  ⟨((claim_C3 [] [] [] 1 (1 / 200000) []).1 (by norm_num [sampleEpsilon])).1,
   (claim_C3 [0] [0] [0] 1 1 []).2 (by norm_num [sampleEpsilon])⟩

/-- Counterexample to claim C6 as stated: with joint limits
`max_velocity = 10`, declared deceleration limit `max_deceleration = -1`
(deceleration limits are negative quantities; the code compares against
`fabs(max_deceleration)`), previous velocity `1`, current velocity `1/2`
(a decelerating sample whose velocity limit is satisfied) and
acceleration `-1/2`, the claim predicts failure since
`|acceleration| = 1/2 > -1 = max_deceleration`, but
`verifySampleJointLimits` accepts the sample because `1/2 ≤ |-1|`. -/
theorem claim_C6_counterexample :
    verifyVelocityLimit ⟨10, false, 0, true, -1⟩ (((1:ℚ)/2 - 0) / 1) = true ∧
    ¬ |(1 : ℚ)| ≤ |((1:ℚ)/2 - 0) / 1| ∧
    (⟨10, false, 0, true, -1⟩ : JointLimits).has_deceleration_limits = true ∧
    |(((1:ℚ)/2 - 0) / 1 - 1) / (1 + 1) * 2|
      > (⟨10, false, 0, true, -1⟩ : JointLimits).max_deceleration ∧
    verifySampleJointLimits [0] [1] [1/2] 1 1 [⟨10, false, 0, true, -1⟩] = true := by
  refine ⟨by with_unfolding_all decide, by with_unfolding_all decide, rfl,
    by with_unfolding_all decide, by with_unfolding_all decide⟩

/-- Claim C6 (amended: the acceleration magnitude is compared against the
absolute value of the declared limit, mirroring the code's
`fabs(max_acceleration)` / `fabs(max_deceleration)`): for a joint whose
velocity limit is satisfied, the per-joint check classifies the sample as
accelerating iff `|previous velocity| ≤ |current velocity|`, and fails
iff the corresponding declared limit's absolute value is exceeded by
`|acceleration|`, where
`acceleration = 2*(current velocity - previous velocity)/(previous duration + current duration)`;
moreover, above the minimum epsilon, `verifySampleJointLimits` on a
single joint is exactly this per-joint check. -/
theorem claim_C6 (position_last velocity_last position_current : ℚ)
    (duration_last duration_current : ℚ) (lim : JointLimits)
    (hvel : verifyVelocityLimit lim
      ((position_current - position_last) / duration_current) = true) :
    (checkSampleJoint position_last velocity_last position_current
        duration_last duration_current lim = false ↔
      ((|velocity_last| ≤ |(position_current - position_last) / duration_current| ∧
        lim.has_acceleration_limits = true ∧
        |((position_current - position_last) / duration_current - velocity_last)
            / (duration_last + duration_current) * 2| > |lim.max_acceleration|) ∨
       (¬ |velocity_last| ≤ |(position_current - position_last) / duration_current| ∧
        lim.has_deceleration_limits = true ∧
        |((position_current - position_last) / duration_current - velocity_last)
            / (duration_last + duration_current) * 2| > |lim.max_deceleration|))) ∧
    (sampleEpsilon < duration_current →
      verifySampleJointLimits [position_last] [velocity_last] [position_current]
          duration_last duration_current [lim]
        = checkSampleJoint position_last velocity_last position_current
            duration_last duration_current lim) := by
  constructor
  · simp only [checkSampleJoint, hvel]
    split_ifs with h1 h2 h3 <;> simp_all
  · intro h
    simp [verifySampleJointLimits, perJointLimitChecks, not_le.mpr h]

/-- Witness for claim C6 at a concrete accelerating sample with a
declared acceleration limit that is exceeded. -/
theorem claim_C6_witness :
    checkSampleJoint 0 0 1 1 1 ⟨10, true, 1/10, false, 0⟩ = false ∧
    verifySampleJointLimits [0] [0] [1] 1 1 [⟨10, true, 1/10, false, 0⟩]
      = checkSampleJoint 0 0 1 1 1 ⟨10, true, 1/10, false, 0⟩ := by
  have h := claim_C6 0 0 1 1 1 ⟨10, true, 1/10, false, 0⟩ (by with_unfolding_all decide)
  exact ⟨h.1.mpr (by with_unfolding_all decide), h.2 (by norm_num [sampleEpsilon])⟩

/-- Claim C7: `isScalingFactorValid s` holds iff `0.0001 < s ≤ 1`, and —
with the request-validation dispatch modelled from the spec — a motion
plan request whose velocity (resp. acceleration) scaling factor lies
outside `(0.0001, 1]` is rejected with the velocity (resp. acceleration)
scaling-incorrect kind, while factors inside the interval pass. -/
theorem claim_C7 (s velocity_scaling acceleration_scaling : ℚ) :
    (isScalingFactorValid s = true ↔ 1 / 10 ^ 4 < s ∧ s ≤ 1) ∧
    (¬ (1 / 10 ^ 4 < velocity_scaling ∧ velocity_scaling ≤ 1) →
      validateScalingFactors velocity_scaling acceleration_scaling
        = ScalingCheckResult.velocityScalingIncorrect) ∧
    ((1 / 10 ^ 4 < velocity_scaling ∧ velocity_scaling ≤ 1) →
      ¬ (1 / 10 ^ 4 < acceleration_scaling ∧ acceleration_scaling ≤ 1) →
      validateScalingFactors velocity_scaling acceleration_scaling
        = ScalingCheckResult.accelerationScalingIncorrect) ∧
    ((1 / 10 ^ 4 < velocity_scaling ∧ velocity_scaling ≤ 1) →
      (1 / 10 ^ 4 < acceleration_scaling ∧ acceleration_scaling ≤ 1) →
      validateScalingFactors velocity_scaling acceleration_scaling
        = ScalingCheckResult.ok) := by
  have hval : ∀ x : ℚ, isScalingFactorValid x = true ↔ 1 / 10 ^ 4 < x ∧ x ≤ 1 := by
    intro x
    simp [isScalingFactorValid, MIN_SCALING_FACTOR, MAX_SCALING_FACTOR]
  refine ⟨hval s, fun hv => ?_, fun hv ha => ?_, fun hv ha => ?_⟩
  · have : isScalingFactorValid velocity_scaling = false := by
      cases h : isScalingFactorValid velocity_scaling with
      | false => rfl
      | true => exact absurd ((hval velocity_scaling).mp h) hv
    simp [validateScalingFactors, this]
  · have hv' : isScalingFactorValid velocity_scaling = true := (hval _).mpr hv
    have ha' : isScalingFactorValid acceleration_scaling = false := by
      cases h : isScalingFactorValid acceleration_scaling with
      | false => rfl
      | true => exact absurd ((hval acceleration_scaling).mp h) ha
    simp [validateScalingFactors, hv', ha']
  · have hv' : isScalingFactorValid velocity_scaling = true := (hval _).mpr hv
    have ha' : isScalingFactorValid acceleration_scaling = true := (hval _).mpr ha
    simp [validateScalingFactors, hv', ha']

/-- Witness for claim C7 at concrete scaling factors: `2` is rejected as
velocity scaling, and the pair `(1/2, 1/2)` passes. -/
theorem claim_C7_witness :
    validateScalingFactors 2 (1/2) = ScalingCheckResult.velocityScalingIncorrect ∧
    validateScalingFactors (1/2) (1/2) = ScalingCheckResult.ok :=
  ⟨(claim_C7 2 2 (1/2)).2.1 (by norm_num),
   (claim_C7 (1/2) (1/2) (1/2)).2.2.2 (by norm_num) (by norm_num)⟩

end Pilz

namespace Pilz

/-- Claim C8: with a non-empty source, `TrajectoryAppender::merge`
splices the source starting at its second waypoint when the accumulator
is non-empty and its last waypoint matches the source's first within
`ROBOT_STATE_EQUALITY_EPSILON` (yielding `acc + src - 1` waypoints, no
duplicated boundary point), and otherwise — including an empty
accumulator — appends every source waypoint (yielding `acc + src`
waypoints). -/
theorem claim_C8 (result source : RobotTrajectory)
    (hsrc : source.waypoints ≠ []) :
    (result.waypoints ≠ [] ∧
        isRobotStateEqual (result.waypoints.getLastD default)
          (source.waypoints.headD default) ROBOT_STATE_EQUALITY_EPSILON = true →
      (TrajectoryAppender.merge result source).waypoints
          = result.waypoints ++ source.waypoints.drop 1 ∧
      (TrajectoryAppender.merge result source).waypoints.length
          = result.waypoints.length + source.waypoints.length - 1) ∧
    (¬ (result.waypoints ≠ [] ∧
        isRobotStateEqual (result.waypoints.getLastD default)
          (source.waypoints.headD default) ROBOT_STATE_EQUALITY_EPSILON = true) →
      (TrajectoryAppender.merge result source).waypoints
          = result.waypoints ++ source.waypoints ∧
      (TrajectoryAppender.merge result source).waypoints.length
          = result.waypoints.length + source.waypoints.length) := by
  have hempty : (result.waypoints.isEmpty = false) ↔ result.waypoints ≠ [] :=
    List.isEmpty_eq_false
  have hlen : 1 ≤ source.waypoints.length := by
    cases h : source.waypoints with
    | nil => exact absurd h hsrc
    | cons a l => simp
  constructor
  · intro h
    have hcond : result.waypoints.isEmpty = false ∧
        isRobotStateEqual (result.waypoints.getLastD default)
          (source.waypoints.headD default) ROBOT_STATE_EQUALITY_EPSILON = true :=
      ⟨hempty.mpr h.1, h.2⟩
    have hw : (TrajectoryAppender.merge result source).waypoints
        = result.waypoints ++ source.waypoints.drop 1 := by
      simp only [TrajectoryAppender.merge]
      rw [if_pos hcond]
    refine ⟨hw, ?_⟩
    rw [hw]
    simp only [List.length_append, List.length_drop]
    omega
  · intro h
    have hcond : ¬ (result.waypoints.isEmpty = false ∧
        isRobotStateEqual (result.waypoints.getLastD default)
          (source.waypoints.headD default) ROBOT_STATE_EQUALITY_EPSILON = true) := by
      intro hc
      exact h ⟨hempty.mp hc.1, hc.2⟩
    have hw : (TrajectoryAppender.merge result source).waypoints
        = result.waypoints ++ source.waypoints := by
      simp only [TrajectoryAppender.merge]
      rw [if_neg hcond]
    refine ⟨hw, ?_⟩
    rw [hw]
    simp only [List.length_append]

/-- Witness for claim C8 at concrete trajectories: a matching boundary
waypoint is deduplicated, and a non-matching one is kept. -/
theorem claim_C8_witness :
    (TrajectoryAppender.merge ⟨[⟨[0], [0], [0]⟩], [0]⟩
        ⟨[⟨[0], [0], [0]⟩, ⟨[1], [0], [0]⟩], [0, 1]⟩).waypoints
      = [⟨[0], [0], [0]⟩] ++ [⟨[0], [0], [0]⟩, ⟨[1], [0], [0]⟩].drop 1 ∧
    (TrajectoryAppender.merge ⟨[⟨[0], [0], [0]⟩], [0]⟩
        ⟨[⟨[5], [0], [0]⟩, ⟨[6], [0], [0]⟩], [0, 1]⟩).waypoints
      = [⟨[0], [0], [0]⟩] ++ [⟨[5], [0], [0]⟩, ⟨[6], [0], [0]⟩] :=
  ⟨((claim_C8 ⟨[⟨[0], [0], [0]⟩], [0]⟩ ⟨[⟨[0], [0], [0]⟩, ⟨[1], [0], [0]⟩], [0, 1]⟩
      (by simp)).1 ⟨by simp, by with_unfolding_all decide⟩).1,
   ((claim_C8 ⟨[⟨[0], [0], [0]⟩], [0]⟩ ⟨[⟨[5], [0], [0]⟩, ⟨[6], [0], [0]⟩], [0, 1]⟩
      (by simp)).2 (fun hc => by
        have := hc.2
        revert this
        with_unfolding_all decide)).1⟩

/-- Claim C10: `computePoseIK` fails, without invoking the IK solver,
whenever the planning group is unknown to the robot model, or the group
cannot set its state from IK for the link, or the given frame differs
from the model frame (the result is `none` for every possible solver);
and a successful call implies the frame equals the model frame. -/
theorem claim_C10 {Pose : Type} (robot_model : RobotModel Pose)
    (group_name link_name : String) (pose : Pose) (frame_id : String)
    (seed : Joints) (timeout : ℚ) :
    ((robot_model.hasJointModelGroup group_name = false ∨
        robot_model.canSetStateFromIK group_name link_name = false ∨
        frame_id ≠ robot_model.modelFrame) →
      ∀ solver, computePoseIK { robot_model with setFromIK := solver }
        group_name link_name pose frame_id seed timeout = none) ∧
    (∀ solution, computePoseIK robot_model group_name link_name pose frame_id
        seed timeout = some solution → frame_id = robot_model.modelFrame) := by
  constructor
  · rintro (h | h | h) solver <;> simp [computePoseIK, h]
  · intro solution h
    unfold computePoseIK at h
    split_ifs at h with h1 h2 h3
    · exact not_not.mp h3

/-- Witness for claim C10: a robot model without the requested planning
group rejects the request for an arbitrary solver, and a successful call
on a model that knows the group forces the frame to be the model frame. -/
theorem claim_C10_witness :
    computePoseIK
      (⟨fun _ => false, fun _ _ => true, "base", fun _ _ _ _ _ => some [3]⟩ :
        RobotModel Unit)
      "arm" "tool0" () "base" [] 1 = none ∧
    "base" = ((⟨fun _ => true, fun _ _ => true, "base",
      fun _ _ _ _ _ => some [3]⟩ : RobotModel Unit)).modelFrame :=
  ⟨(claim_C10
      (⟨fun _ => false, fun _ _ => true, "base", fun _ _ _ _ _ => some [3]⟩ :
        RobotModel Unit)
      "arm" "tool0" () "base" [] 1).1 (Or.inl rfl) _,
   (claim_C10
      (⟨fun _ => true, fun _ _ => true, "base", fun _ _ _ _ _ => some [3]⟩ :
        RobotModel Unit)
      "arm" "tool0" () "base" [] 1).2 [3] (by rfl)⟩

end Pilz

namespace Pilz

/-- Claim C9: `determineAndCheckSamplingTime` fails (leaving the in-out
sampling time untouched) when neither trajectory has at least three
waypoints, i.e. two inter-waypoint intervals; otherwise it sets the
sampling time from the first two waypoints of the first trajectory when
that one has enough waypoints, else of the second, and succeeds iff every
inter-waypoint duration of both trajectories other than each trajectory's
final interval deviates from that sampling time by at most epsilon. -/
theorem claim_C9 (t1 t2 : RobotTrajectory) (eps st0 : ℚ)
    (h1 : t1.waypoints ≠ []) (h2 : t2.waypoints ≠ []) :
    (t1.waypoints.length < 3 ∧ t2.waypoints.length < 3 →
      determineAndCheckSamplingTime t1 t2 eps st0 = (false, st0)) ∧
    (3 ≤ t1.waypoints.length ∨ 3 ≤ t2.waypoints.length →
      (determineAndCheckSamplingTime t1 t2 eps st0).2
        = (if 3 ≤ t1.waypoints.length then getWayPointDurationFromPrevious t1 1
            else getWayPointDurationFromPrevious t2 1) ∧
      ((determineAndCheckSamplingTime t1 t2 eps st0).1 = true ↔
        (∀ i, 1 ≤ i → i + 1 < t1.waypoints.length →
          |(determineAndCheckSamplingTime t1 t2 eps st0).2
            - getWayPointDurationFromPrevious t1 i| ≤ eps) ∧
        (∀ i, 1 ≤ i → i + 1 < t2.waypoints.length →
          |(determineAndCheckSamplingTime t1 t2 eps st0).2
            - getWayPointDurationFromPrevious t2 i| ≤ eps))) := by
  have hl1 : 1 ≤ t1.waypoints.length := List.length_pos.mpr h1
  have hl2 : 1 ≤ t2.waypoints.length := List.length_pos.mpr h2
  constructor
  · intro h
    have hc : t1.waypoints.length - 1 < 2 ∧ t2.waypoints.length - 1 < 2 := by omega
    simp only [determineAndCheckSamplingTime]
    rw [if_pos hc]
  · intro h
    have hc : ¬ (t1.waypoints.length - 1 < 2 ∧ t2.waypoints.length - 1 < 2) := by
      omega
    simp only [determineAndCheckSamplingTime]
    rw [if_neg hc]
    dsimp only
    constructor
    · by_cases hx : 3 ≤ t1.waypoints.length
      · rw [if_pos (show 2 ≤ t1.waypoints.length - 1 by omega), if_pos hx]
      · rw [if_neg (show ¬ 2 ≤ t1.waypoints.length - 1 by omega), if_neg hx]
    · rw [List.all_eq_true]
      have hf : ∀ st' : ℚ, ∀ i : Nat,
          ((((!(decide (i < t1.waypoints.length - 1))) ||
              decide (|st' - getWayPointDurationFromPrevious t1 i| ≤ eps)) &&
            ((!(decide (i < t2.waypoints.length - 1))) ||
              decide (|st' - getWayPointDurationFromPrevious t2 i| ≤ eps))) = true) ↔
          ((i < t1.waypoints.length - 1 →
              |st' - getWayPointDurationFromPrevious t1 i| ≤ eps) ∧
           (i < t2.waypoints.length - 1 →
              |st' - getWayPointDurationFromPrevious t2 i| ≤ eps)) := by
        intro st' i
        simp only [Bool.and_eq_true, Bool.or_eq_true, Bool.not_eq_true',
          decide_eq_false_iff_not, decide_eq_true_eq]
        tauto
      constructor
      · intro hall
        constructor
        · intro i h1i hi
          have him : i ∈ List.range'
              1 (max (t1.waypoints.length - 1) (t2.waypoints.length - 1) - 1) :=
            List.mem_range'_1.mpr ⟨h1i, by omega⟩
          exact ((hf _ i).mp (hall _ him)).1 (by omega)
        · intro i h1i hi
          have him : i ∈ List.range'
              1 (max (t1.waypoints.length - 1) (t2.waypoints.length - 1) - 1) :=
            List.mem_range'_1.mpr ⟨h1i, by omega⟩
          exact ((hf _ i).mp (hall _ him)).2 (by omega)
      · rintro ⟨ha, hb⟩ x hx
        have hmem := List.mem_range'_1.mp hx
        refine (hf _ x).mpr
          ⟨fun hlt => ha x hmem.1 (by omega), fun hlt => hb x hmem.1 (by omega)⟩

/-- Witness for claim C9: two 2-waypoint trajectories cannot establish a
sampling time, so the reconciler fails and leaves the in-out value. -/
theorem claim_C9_witness :
    determineAndCheckSamplingTime ⟨[default, default], [0, 1]⟩
      ⟨[default, default], [0, 1]⟩ 0 7 = (false, 7) :=
  (claim_C9 ⟨[default, default], [0, 1]⟩ ⟨[default, default], [0, 1]⟩ 0 7
    (by simp) (by simp)).1 (by simp)

end Pilz

namespace Pilz

/-- With positive sampling time and enough fuel, the time-sample loop is
the arithmetic progression `t, t+s, t+2s, ...` of length
`⌈(duration - epsilon - t)/s⌉⁺`: the loop always stops because its guard
fails, never because fuel runs out. -/
theorem timeSamplesLoop_spec (duration s : ℚ) (hs : 0 < s) :
    ∀ (fuel : Nat) (t : ℚ),
      (⌈(duration - sampleEpsilon - t) / s⌉).toNat < fuel →
      timeSamplesLoop duration s fuel t
        = (List.range (⌈(duration - sampleEpsilon - t) / s⌉).toNat).map
            (fun i : ℕ => t + (i : ℚ) * s) := by
  intro fuel
  induction fuel with
  | zero => intro t ht; exact absurd ht (Nat.not_lt_zero _)
  | succ n ih =>
    intro t ht
    by_cases hlt : t < duration - sampleEpsilon
    · have hx : 0 < (duration - sampleEpsilon - t) / s := div_pos (by linarith) hs
      have hceil1 : 1 ≤ ⌈(duration - sampleEpsilon - t) / s⌉ := Int.ceil_pos.mpr hx
      have hnext : (duration - sampleEpsilon - (t + s)) / s
          = (duration - sampleEpsilon - t) / s - 1 := by
        field_simp
        ring
      have hceil2 : ⌈(duration - sampleEpsilon - (t + s)) / s⌉
          = ⌈(duration - sampleEpsilon - t) / s⌉ - 1 := by
        rw [hnext, Int.ceil_sub_one]
      have htn : (⌈(duration - sampleEpsilon - t) / s⌉).toNat
          = (⌈(duration - sampleEpsilon - (t + s)) / s⌉).toNat + 1 := by
        rw [hceil2]; omega
      simp only [timeSamplesLoop]
      rw [if_pos hlt, ih (t + s) (by omega), htn, List.range_succ_eq_map]
      simp only [List.map_cons, List.map_map, Nat.cast_zero, zero_mul, add_zero]
      congr 1
      refine List.map_congr_left fun i hi => ?_
      simp only [Function.comp]
      push_cast
      ring
    · have hnum : duration - sampleEpsilon - t ≤ 0 := by
        have := not_lt.mp hlt
        linarith
      have hle : (duration - sampleEpsilon - t) / s ≤ 0 :=
        div_nonpos_iff.mpr (Or.inr ⟨hnum, hs.le⟩)
      have hc0 : ⌈(duration - sampleEpsilon - t) / s⌉ ≤ 0 :=
        Int.ceil_le.mpr (by exact_mod_cast hle)
      have hz : (⌈(duration - sampleEpsilon - t) / s⌉).toNat = 0 := by omega
      simp only [timeSamplesLoop]
      rw [if_neg hlt, hz]
      simp

/-- With positive sampling time, the full time-sample sequence of the KDL
overload is the progression `0, s, 2s, ...` of length
`⌈(duration - epsilon)/s⌉⁺` followed by the exact duration. -/
theorem timeSamples_eq (duration s : ℚ) (hs : 0 < s) :
    timeSamples duration s
      = (List.range (⌈(duration - sampleEpsilon) / s⌉).toNat).map
          (fun i : ℕ => (i : ℚ) * s) ++ [duration] := by
  unfold timeSamples
  rw [timeSamplesLoop_spec duration s hs _ 0 (by rw [sub_zero]; omega)]
  rw [sub_zero]
  congr 1
  refine List.map_congr_left fun i hi => ?_
  simp

end Pilz

namespace Pilz

/-- Counterexample to claim C5 as stated: with path duration `0.200005`
and sampling time `0.1`, the loop guard `t < Duration() - 10e-6` already
fails at `t = 0.2`, so the samples are `[0, 0.1, 0.200005]` and the final
gap `0.100005` exceeds the sampling time. -/
theorem claim_C5_counterexample :
    timeSamples (200005 / 1000000) (1 / 10) = [0, 1 / 10, 200005 / 1000000] ∧
    ¬ ((200005 / 1000000 : ℚ) - 1 / 10 ≤ 1 / 10) := by
  constructor
  · have hc : (⌈(((200005 : ℚ) / 1000000) - sampleEpsilon) / (1 / 10)⌉) = 2 := by
      rw [Int.ceil_eq_iff]
      constructor <;> norm_num [sampleEpsilon]
    rw [timeSamples_eq _ _ (by norm_num), hc]
    rw [show ((2 : ℤ)).toNat = 2 from rfl]
    norm_num [List.range_succ]
  · norm_num

/-- Claim C5 (amended: the final gap is only bounded by
`sampling time + 10e-6` — the loop guard uses `Duration() - 10e-6`, so
the last interval may exceed the sampling time by up to the epsilon — and
for durations at or below `10e-6` the sequence degenerates to the single
sample `[duration]`, which does not start at `0`): for `duration` above
the epsilon, the KDL-overload time samples start at `0`, are strictly
increasing and duplicate-free, end exactly at `duration`, every gap
except the final one equals the sampling time, and the final gap lies in
`(10e-6, sampling time + 10e-6]`. -/
theorem claim_C5 (duration s : ℚ) (hs : 0 < s) :
    (sampleEpsilon < duration →
      (timeSamples duration s).getD 0 0 = 0 ∧
      List.Chain' (· < ·) (timeSamples duration s) ∧
      (timeSamples duration s).Nodup ∧
      (timeSamples duration s).getLast? = some duration ∧
      (∀ i, i + 2 < (timeSamples duration s).length →
        (timeSamples duration s).getD (i + 1) 0
          - (timeSamples duration s).getD i 0 = s) ∧
      sampleEpsilon < duration
          - (timeSamples duration s).getD ((timeSamples duration s).length - 2) 0 ∧
      duration
          - (timeSamples duration s).getD ((timeSamples duration s).length - 2) 0
        ≤ s + sampleEpsilon) ∧
    (0 < duration → duration ≤ sampleEpsilon →
      timeSamples duration s = [duration]) := by
  have he := timeSamples_eq duration s hs
  have heps : (0 : ℚ) < sampleEpsilon := by norm_num [sampleEpsilon]
  constructor
  · intro hd
    set N := (⌈(duration - sampleEpsilon) / s⌉).toNat with hN
    have hx : 0 < (duration - sampleEpsilon) / s := div_pos (by linarith) hs
    have hc1 : 1 ≤ ⌈(duration - sampleEpsilon) / s⌉ := Int.ceil_pos.mpr hx
    have hN1 : 1 ≤ N := by omega
    have hlen : (timeSamples duration s).length = N + 1 := by
      rw [he]; simp
    have hcastZ : ((N : ℤ)) = ⌈(duration - sampleEpsilon) / s⌉ :=
      Int.toNat_of_nonneg (by omega)
    have hle : (duration - sampleEpsilon) / s ≤ (N : ℚ) := by
      have h := Int.le_ceil ((duration - sampleEpsilon) / s)
      rw [← hcastZ] at h
      exact_mod_cast h
    have hgt : ((N : ℚ)) - 1 < (duration - sampleEpsilon) / s := by
      have h := Int.ceil_lt_add_one ((duration - sampleEpsilon) / s)
      rw [← hcastZ] at h
      have h' : ((N : ℚ)) < (duration - sampleEpsilon) / s + 1 := by exact_mod_cast h
      linarith
    have hNs : duration - sampleEpsilon ≤ (N : ℚ) * s := by
      have h := (div_le_iff₀ hs).mp hle
      linarith
    have hNs' : ((N : ℚ) - 1) * s < duration - sampleEpsilon :=
      (lt_div_iff₀ hs).mp hgt
    have hget : ∀ i : ℕ, i < N →
        (timeSamples duration s).getD i 0 = (i : ℚ) * s := by
      intro i hi
      rw [he, List.getD_eq_getElem?_getD,
        List.getElem?_append_left (by simpa using hi)]
      simp [hi]
    have hfirst : (timeSamples duration s).getD 0 0 = 0 := by
      rw [hget 0 (by omega)]; simp
    have hlastq : (timeSamples duration s).getLast? = some duration := by
      rw [he]
      exact List.getLast?_concat _
    have hgaps : ∀ i, i + 2 < (timeSamples duration s).length →
        (timeSamples duration s).getD (i + 1) 0
          - (timeSamples duration s).getD i 0 = s := by
      intro i hi
      rw [hlen] at hi
      rw [hget i (by omega), hget (i + 1) (by omega)]
      push_cast
      ring
    have hpen : (timeSamples duration s).getD
        ((timeSamples duration s).length - 2) 0 = ((N - 1 : ℕ) : ℚ) * s := by
      rw [hlen]
      have h2 : N + 1 - 2 = N - 1 := by omega
      rw [h2, hget (N - 1) (by omega)]
    have hcastN1 : (((N - 1 : ℕ)) : ℚ) = (N : ℚ) - 1 := by
      rw [Nat.cast_sub (by omega)]
      simp
    have hchain : List.Chain' (· < ·) (timeSamples duration s) := by
      rw [he, List.chain'_append]
      refine ⟨?_, by simp, ?_⟩
      · rw [List.chain'_map]
        obtain ⟨m, hm⟩ : ∃ m, N = m + 1 := ⟨N - 1, by omega⟩
        rw [hm, List.chain'_range_succ]
        intro i hi
        have h1 : ((i : ℚ)) * s < ((i : ℚ) + 1) * s := by nlinarith
        push_cast
        linarith
      · intro x hx y hy
        obtain ⟨m, hm⟩ : ∃ m, N = m + 1 := ⟨N - 1, by omega⟩
        rw [hm, List.range_succ, List.map_append, List.map_singleton,
          List.getLast?_concat] at hx
        simp only [Option.mem_def, Option.some.injEq] at hx
        simp only [List.head?_cons, Option.mem_def, Option.some.injEq] at hy
        subst hx
        subst hy
        have hmN : ((m : ℚ)) = (N : ℚ) - 1 := by rw [hm]; push_cast; ring
        rw [hmN]
        linarith
    have hnodup : (timeSamples duration s).Nodup :=
      (List.chain'_iff_pairwise.mp hchain).imp fun h => ne_of_lt h
    refine ⟨hfirst, hchain, hnodup, hlastq, hgaps, ?_, ?_⟩
    · rw [hpen, hcastN1]
      linarith
    · rw [hpen, hcastN1]
      linarith
  · intro hd0 hd
    have hle : (duration - sampleEpsilon) / s ≤ 0 :=
      div_nonpos_iff.mpr (Or.inr ⟨by linarith, hs.le⟩)
    have hc0 : ⌈(duration - sampleEpsilon) / s⌉ ≤ 0 :=
      Int.ceil_le.mpr (by exact_mod_cast hle)
    have hz : (⌈(duration - sampleEpsilon) / s⌉).toNat = 0 := by omega
    rw [he, hz]
    simp

/-- Witness for claim C5 at duration `1` and sampling time `1/3`: the
samples start at `0` and end exactly at the duration. -/
theorem claim_C5_witness :
    (timeSamples 1 (1 / 3)).getD 0 0 = 0 ∧
    (timeSamples 1 (1 / 3)).getLast? = some 1 :=
  ⟨((claim_C5 1 (1 / 3) (by norm_num)).1 (by norm_num [sampleEpsilon])).1,
   ((claim_C5 1 (1 / 3) (by norm_num)).1 (by norm_num [sampleEpsilon])).2.2.2.1⟩

end Pilz

namespace Pilz

/-- The per-sample update preserves failure atomicity. -/
theorem genStep_failureAtomic (point : JointTrajectoryPoint)
    (r : Bool × List JointTrajectoryPoint × MoveItErrorCode)
    (h : FailureAtomic r) : FailureAtomic (genStep point r) := by
  rcases r with ⟨b, pts, ec⟩
  cases b with
  | true => simp [genStep, FailureAtomic]
  | false =>
    refine ⟨fun _ => ⟨rfl, (h.1 rfl).2⟩, fun hc => ?_⟩
    simp [genStep] at hc

/-- Every result of the KDL sampling loop is failure-atomic. -/
theorem generateJointTrajectoryKDLLoop_failureAtomic
    (ik : ℚ → Joints → Option Joints) (joint_limits : List JointLimits)
    (sampling_time : ℚ) (size_one : Bool) :
    ∀ (samples : List ℚ) (is_first : Bool) (t_prev : ℚ) (sol vel : Joints),
      FailureAtomic (generateJointTrajectoryKDLLoop ik joint_limits sampling_time
        size_one is_first t_prev sol vel samples) := by
  intro samples
  induction samples with
  | nil =>
    intro is_first t_prev sol vel
    simp [generateJointTrajectoryKDLLoop, FailureAtomic]
  | cons t rest ih =>
    intro is_first t_prev sol vel
    cases hik : ik t sol with
    | none =>
      simp [generateJointTrajectoryKDLLoop, hik, FailureAtomic]
    | some isol =>
      simp only [generateJointTrajectoryKDLLoop, hik]
      repeat' split
      all_goals
        first
          | (simp [FailureAtomic]; done)
          | exact genStep_failureAtomic _ _ (ih _ _ _ _)

/-- Every result of the CartesianTrajectory waypoint loop is
failure-atomic. -/
theorem generateJointTrajectoryCartLoop_failureAtomic {Pose : Type}
    (ik : Pose → Joints → Option Joints) (joint_limits : List JointLimits) :
    ∀ (trajectory : List (CartesianTrajectoryPoint Pose)) (is_first : Bool)
      (t_prev duration_last : ℚ) (sol vel : Joints),
      FailureAtomic (generateJointTrajectoryCartLoop ik joint_limits
        is_first t_prev duration_last sol vel trajectory) := by
  intro trajectory
  induction trajectory with
  | nil =>
    intro is_first t_prev duration_last sol vel
    simp [generateJointTrajectoryCartLoop, FailureAtomic]
  | cons p rest ih =>
    intro is_first t_prev duration_last sol vel
    cases hik : ik p.pose sol with
    | none =>
      simp [generateJointTrajectoryCartLoop, hik, FailureAtomic]
    | some isol =>
      simp only [generateJointTrajectoryCartLoop, hik]
      repeat' split
      all_goals
        first
          | (simp [FailureAtomic]; done)
          | exact genStep_failureAtomic _ _ (ih _ _ _ _ _)

/-- Claim C1: for every input to either `generateJointTrajectory`
overload, a failure return carries an empty point list — no partially
accumulated waypoint survives — and the error code `NO_IK_SOLUTION`
(IK failure) or `PLANNING_FAILED` (limit violation); a `true` return
carries the error code `SUCCESS`. -/
theorem claim_C1 :
    (∀ (ik : ℚ → Joints → Option Joints) (joint_limits : List JointLimits)
       (duration sampling_time : ℚ) (initial_joint_position : Joints),
      FailureAtomic (generateJointTrajectoryKDL ik joint_limits duration
        sampling_time initial_joint_position)) ∧
    (∀ (Pose : Type) (ik : Pose → Joints → Option Joints)
       (joint_limits : List JointLimits)
       (trajectory : List (CartesianTrajectoryPoint Pose))
       (initial_joint_position initial_joint_velocity : Joints),
      FailureAtomic (generateJointTrajectoryCart ik joint_limits trajectory
        initial_joint_position initial_joint_velocity)) := by
  constructor
  · intro ik joint_limits duration sampling_time initial_joint_position
    exact generateJointTrajectoryKDLLoop_failureAtomic ik joint_limits
      sampling_time _ _ _ _ _ _
  · intro Pose ik joint_limits trajectory initial_joint_position initial_joint_velocity
    exact generateJointTrajectoryCartLoop_failureAtomic ik joint_limits _ _ _ _ _ _

end Pilz

namespace Pilz

/-- Witness for claim C1: a run of the KDL overload whose IK solver
always fails returns an empty point list and the `NO_IK_SOLUTION` code. -/
theorem claim_C1_witness :
    (generateJointTrajectoryKDL (fun _ _ => none) [] 1 2 [0]).2.1 = [] ∧
    ((generateJointTrajectoryKDL (fun _ _ => none) [] 1 2 [0]).2.2
        = MoveItErrorCode.NO_IK_SOLUTION ∨
     (generateJointTrajectoryKDL (fun _ _ => none) [] 1 2 [0]).2.2
        = MoveItErrorCode.PLANNING_FAILED) :=
  (claim_C1.1 (fun _ _ => none) [] 1 2 [0]).1 (by
    have hc : (⌈((1 : ℚ) - sampleEpsilon) / 2⌉) = 1 := by
      rw [Int.ceil_eq_iff]
      constructor <;> norm_num [sampleEpsilon]
    have hts : timeSamples 1 2 = [0, 1] := by
      rw [timeSamples_eq _ _ (by norm_num), hc]
      rw [show ((1 : ℤ)).toNat = 1 from rfl]
      norm_num [List.range_succ]
    simp [generateJointTrajectoryKDL, hts, generateJointTrajectoryKDLLoop])

end Pilz

namespace Pilz

/-- The first component of a per-sample update is that of the remainder. -/
theorem genStep_fst (point : JointTrajectoryPoint)
    (r : Bool × List JointTrajectoryPoint × MoveItErrorCode) :
    (genStep point r).1 = r.1 := by
  rcases r with ⟨b, pts, ec⟩
  cases b <;> simp [genStep]

/-- On a successful remainder, the per-sample update prepends the
current point. -/
theorem genStep_of_success (point : JointTrajectoryPoint)
    (r : Bool × List JointTrajectoryPoint × MoveItErrorCode) (h : r.1 = true) :
    genStep point r = (true, point :: r.2.1, MoveItErrorCode.SUCCESS) := by
  rcases r with ⟨b, pts, ec⟩
  cases b with
  | false => simp at h
  | true => simp [genStep]

/-- On success, the KDL sampling loop emits exactly one trajectory point
per time sample. -/
theorem generateJointTrajectoryKDLLoop_success_length
    (ik : ℚ → Joints → Option Joints) (joint_limits : List JointLimits)
    (sampling_time : ℚ) (size_one : Bool) :
    ∀ (samples : List ℚ) (is_first : Bool) (t_prev : ℚ) (sol vel : Joints),
      (generateJointTrajectoryKDLLoop ik joint_limits sampling_time size_one
          is_first t_prev sol vel samples).1 = true →
      (generateJointTrajectoryKDLLoop ik joint_limits sampling_time size_one
          is_first t_prev sol vel samples).2.1.length = samples.length := by
  intro samples
  induction samples with
  | nil =>
    intro is_first t_prev sol vel h
    simp [generateJointTrajectoryKDLLoop]
  | cons t rest ih =>
    intro is_first t_prev sol vel
    cases hik : ik t sol with
    | none =>
      intro h
      simp [generateJointTrajectoryKDLLoop, hik] at h
    | some isol =>
      simp only [generateJointTrajectoryKDLLoop, hik]
      repeat' split
      all_goals intro h
      all_goals
        first
          | (simp at h; done)
          | (have hr := h
             rw [genStep_fst] at hr
             rw [genStep_of_success _ _ hr]
             simp only [List.length_cons]
             rw [ih _ _ _ _ hr])

/-- Unfolding of the KDL sampling loop at the first sample: the limits
check is skipped and the first point carries zero velocities and
accelerations. -/
theorem kdlLoop_first_step (ik : ℚ → Joints → Option Joints)
    (joint_limits : List JointLimits) (sampling_time : ℚ) (size_one : Bool)
    (t : ℚ) (rest : List ℚ) (t_prev : ℚ) (sol vel isol : Joints)
    (hik : ik t sol = some isol) :
    generateJointTrajectoryKDLLoop ik joint_limits sampling_time size_one
        true t_prev sol vel (t :: rest)
      = genStep
          { time_from_start := t, positions := isol
            velocities := isol.map fun _ => 0
            accelerations := isol.map fun _ => 0 }
          (generateJointTrajectoryKDLLoop ik joint_limits sampling_time size_one
            false t isol (isol.map fun _ => 0) rest) := by
  simp only [generateJointTrajectoryKDLLoop, hik, Bool.true_eq_false, false_and,
    if_false]

/-- Unfolding of the KDL sampling loop on its last remaining sample
(non-first iteration, `size_one = false`): the interval duration is
`t - t_prev` and the emitted point carries zeros. -/
theorem kdlLoop_singleton_step (ik : ℚ → Joints → Option Joints)
    (joint_limits : List JointLimits) (sampling_time : ℚ)
    (t t_prev : ℚ) (sol vel isol : Joints)
    (hik : ik t sol = some isol)
    (hv : ¬ verifySampleJointLimits sol vel isol sampling_time (t - t_prev)
      joint_limits = false) :
    generateJointTrajectoryKDLLoop ik joint_limits sampling_time false
        false t_prev sol vel [t]
      = (true,
         [{ time_from_start := t, positions := isol
            velocities := isol.map fun _ => 0
            accelerations := isol.map fun _ => 0 }],
         MoveItErrorCode.SUCCESS) := by
  simp only [generateJointTrajectoryKDLLoop, hik, hv, genStep,
    List.isEmpty_nil, List.isEmpty_cons, Bool.false_eq_true, Bool.true_eq_false,
    if_false, if_true, eq_self_iff_true, true_and, false_and, and_false,
    and_true, not_false_iff]

/-- Unfolding of the KDL sampling loop on an interior sample (non-first
iteration, at least one further sample, `size_one = false`): the interval
duration is the nominal sampling time and the emitted point carries the
`interiorVelAcc` finite differences. -/
theorem kdlLoop_interior_step (ik : ℚ → Joints → Option Joints)
    (joint_limits : List JointLimits) (sampling_time : ℚ)
    (t r2 : ℚ) (rs : List ℚ) (t_prev : ℚ) (sol vel isol : Joints)
    (hik : ik t sol = some isol)
    (hv : ¬ verifySampleJointLimits sol vel isol sampling_time sampling_time
      joint_limits = false) :
    generateJointTrajectoryKDLLoop ik joint_limits sampling_time false
        false t_prev sol vel (t :: r2 :: rs)
      = genStep
          { time_from_start := t, positions := isol
            velocities := (interiorVelAcc isol sol vel sampling_time).map Prod.fst
            accelerations := (interiorVelAcc isol sol vel sampling_time).map Prod.snd }
          (generateJointTrajectoryKDLLoop ik joint_limits sampling_time false
            false t isol ((interiorVelAcc isol sol vel sampling_time).map Prod.fst)
            (r2 :: rs)) := by
  conv =>
    lhs
    rw [generateJointTrajectoryKDLLoop.eq_def]
  simp only [hik, List.isEmpty_nil, List.isEmpty_cons, Bool.false_eq_true,
    Bool.true_eq_false, if_false, if_true, eq_self_iff_true, true_and,
    false_and, and_false, and_true]
  rw [if_neg hv]

/-- Combined success invariant of the KDL sampling loop, for the
non-first iterations and a non-degenerate sample list
(`size_one = false`), relative to the previously emitted point `p` (whose
positions and velocities are the loop's seed and last-velocity
arguments): one point is emitted per sample; consecutive emitted points
other than the last satisfy the `interiorVelAcc` finite-difference
relation; and the last emitted point has zero velocities and
accelerations. -/
theorem kdlLoop_shape (ik : ℚ → Joints → Option Joints)
    (joint_limits : List JointLimits) (sampling_time : ℚ) :
    ∀ (rest : List ℚ) (t_prev : ℚ) (p : JointTrajectoryPoint),
      (generateJointTrajectoryKDLLoop ik joint_limits sampling_time false
          false t_prev p.positions p.velocities rest).1 = true →
      ((generateJointTrajectoryKDLLoop ik joint_limits sampling_time false
          false t_prev p.positions p.velocities rest).2.1.length = rest.length ∧
       List.Chain' (kdlFiniteDiffRel sampling_time)
        ((p :: (generateJointTrajectoryKDLLoop ik joint_limits sampling_time false
          false t_prev p.positions p.velocities rest).2.1).dropLast) ∧
       (rest ≠ [] → ∃ q,
        (generateJointTrajectoryKDLLoop ik joint_limits sampling_time false
          false t_prev p.positions p.velocities rest).2.1.getLast? = some q ∧
        (∀ v ∈ q.velocities, v = 0) ∧ (∀ a ∈ q.accelerations, a = 0))) := by
  intro rest
  induction rest with
  | nil =>
    intro t_prev p h
    refine ⟨by simp [generateJointTrajectoryKDLLoop], ?_, by simp⟩
    simp [generateJointTrajectoryKDLLoop]
  | cons t rest' ih =>
    intro t_prev p h
    cases hik : ik t p.positions with
    | none => simp [generateJointTrajectoryKDLLoop, hik] at h
    | some isol =>
      cases rest' with
      | nil =>
        by_cases hv : verifySampleJointLimits p.positions p.velocities isol
            sampling_time (t - t_prev) joint_limits = false
        · simp [generateJointTrajectoryKDLLoop, hik, hv] at h
        · rw [kdlLoop_singleton_step ik joint_limits sampling_time t t_prev
            _ _ isol hik hv] at h ⊢
          refine ⟨by simp, by simp, fun _ =>
            ⟨{ time_from_start := t, positions := isol
               velocities := isol.map fun _ => 0
               accelerations := isol.map fun _ => 0 },
             by simp, by simp, by simp⟩⟩
      | cons r2 rs =>
        by_cases hv : verifySampleJointLimits p.positions p.velocities isol
            sampling_time sampling_time joint_limits = false
        · simp [generateJointTrajectoryKDLLoop, hik, hv] at h
        · rw [kdlLoop_interior_step ik joint_limits sampling_time t r2 rs t_prev
            _ _ isol hik hv] at h ⊢
          have hr := h
          rw [genStep_fst] at hr
          obtain ⟨hlen, hchain, hlast⟩ :=
            ih t { time_from_start := t, positions := isol
                   velocities := (interiorVelAcc isol p.positions p.velocities
                     sampling_time).map Prod.fst
                   accelerations := (interiorVelAcc isol p.positions p.velocities
                     sampling_time).map Prod.snd } hr
          rw [genStep_of_success _ _ hr]
          obtain ⟨x, xs, hx⟩ : ∃ x xs,
              (generateJointTrajectoryKDLLoop ik joint_limits sampling_time false
                false t isol
                ((interiorVelAcc isol p.positions p.velocities sampling_time).map
                  Prod.fst) (r2 :: rs)).2.1 = x :: xs := by
            rcases hpts : (generateJointTrajectoryKDLLoop ik joint_limits
                sampling_time false false t isol
                ((interiorVelAcc isol p.positions p.velocities sampling_time).map
                  Prod.fst) (r2 :: rs)).2.1 with _ | ⟨x, xs⟩
            · rw [hpts] at hlen; simp at hlen
            · exact ⟨x, xs, rfl⟩
          refine ⟨by simp [hlen], ?_, fun _ => ?_⟩
          · rw [hx] at hchain ⊢
            rw [List.dropLast_cons₂, List.dropLast_cons₂]
            rw [List.dropLast_cons₂] at hchain
            exact List.chain'_cons.mpr ⟨⟨rfl, rfl⟩, hchain⟩
          · obtain ⟨q, hl, hv2, ha⟩ := hlast (by simp)
            refine ⟨q, ?_, hv2, ha⟩
            rw [hx] at hl
            rw [hx, List.getLast?_cons_cons]
            exact hl

end Pilz

namespace Pilz

/-- Counterexample to claim C2 as stated: the CartesianTrajectory
overload never forces the first or last waypoint to zero.  With a single
Cartesian waypoint at time `1` whose IK solution is `[1]` from initial
position `[0]` (well within the joint limits), the overload succeeds and
its only — hence first and last — waypoint carries velocity `1` and
acceleration `1`, not zero. -/
theorem claim_C2_counterexample :
    generateJointTrajectoryCart (fun (_ : Unit) _ => some [1])
        [⟨10, false, 0, false, 0⟩] [⟨(), 1⟩] [0] [0]
      = (true,
         [{ time_from_start := 1, positions := [1], velocities := [1]
            accelerations := [1] }],
         MoveItErrorCode.SUCCESS) ∧
    (1 : ℚ) ≠ 0 := by
  constructor
  · with_unfolding_all decide
  · norm_num

/-- Claim C2 (amended: only the KDL overload clamps; its successfully
returned trajectories have first and last waypoints with zero velocity
and zero acceleration on every joint, while the CartesianTrajectory
overload stores unclamped finite differences everywhere — see the
counterexample). -/
theorem claim_C2 (ik : ℚ → Joints → Option Joints)
    (joint_limits : List JointLimits) (duration sampling_time : ℚ)
    (initial_joint_position : Joints)
    (hsucc : (generateJointTrajectoryKDL ik joint_limits duration sampling_time
      initial_joint_position).1 = true) :
    (∃ pfirst, (generateJointTrajectoryKDL ik joint_limits duration sampling_time
        initial_joint_position).2.1.head? = some pfirst ∧
      (∀ v ∈ pfirst.velocities, v = 0) ∧ (∀ a ∈ pfirst.accelerations, a = 0)) ∧
    (∃ plast, (generateJointTrajectoryKDL ik joint_limits duration sampling_time
        initial_joint_position).2.1.getLast? = some plast ∧
      (∀ v ∈ plast.velocities, v = 0) ∧ (∀ a ∈ plast.accelerations, a = 0)) := by
  have hne : timeSamples duration sampling_time ≠ [] := by simp [timeSamples]
  obtain ⟨t, rest, hts⟩ : ∃ t rest,
      timeSamples duration sampling_time = t :: rest := by
    rcases h : timeSamples duration sampling_time with _ | ⟨t, rest⟩
    · exact absurd h hne
    · exact ⟨t, rest, rfl⟩
  have hgen : generateJointTrajectoryKDL ik joint_limits duration sampling_time
      initial_joint_position
      = generateJointTrajectoryKDLLoop ik joint_limits sampling_time
          ((t :: rest).length == 1) true 0 initial_joint_position
          (initial_joint_position.map fun _ => 0) (t :: rest) := by
    simp only [generateJointTrajectoryKDL, hts]
  rw [hgen] at hsucc ⊢
  cases hik : ik t initial_joint_position with
  | none => simp [generateJointTrajectoryKDLLoop, hik] at hsucc
  | some isol =>
    cases rest with
    | nil =>
      rw [kdlLoop_first_step _ _ _ _ _ _ _ _ _ isol hik] at hsucc ⊢
      rw [show generateJointTrajectoryKDLLoop ik joint_limits sampling_time
          (([t] : List ℚ).length == 1) false t isol (isol.map fun _ => 0) []
          = (true, [], MoveItErrorCode.SUCCESS) from rfl] at hsucc ⊢
      constructor
      · refine ⟨{ time_from_start := t, positions := isol
                  velocities := isol.map fun _ => 0
                  accelerations := isol.map fun _ => 0 },
          by simp [genStep], by simp, by simp⟩
      · refine ⟨{ time_from_start := t, positions := isol
                  velocities := isol.map fun _ => 0
                  accelerations := isol.map fun _ => 0 },
          by simp [genStep], by simp, by simp⟩
    | cons r2 rs =>
      have hso : ((t :: r2 :: rs).length == 1) = false := by simp
      rw [hso] at hsucc ⊢
      rw [kdlLoop_first_step _ _ _ _ _ _ _ _ _ isol hik] at hsucc ⊢
      have hr := hsucc
      rw [genStep_fst] at hr
      obtain ⟨hlen, hchain, hlast⟩ := kdlLoop_shape ik joint_limits sampling_time
        (r2 :: rs) t
        { time_from_start := t, positions := isol
          velocities := isol.map fun _ => 0
          accelerations := isol.map fun _ => 0 } hr
      rw [genStep_of_success _ _ hr]
      constructor
      · refine ⟨{ time_from_start := t, positions := isol
                  velocities := isol.map fun _ => 0
                  accelerations := isol.map fun _ => 0 },
          by simp, by simp, by simp⟩
      · obtain ⟨q, hl, hv, ha⟩ := hlast (by simp)
        obtain ⟨x, xs, hx⟩ : ∃ x xs,
            (generateJointTrajectoryKDLLoop ik joint_limits sampling_time false
              false t isol (isol.map fun _ => 0) (r2 :: rs)).2.1 = x :: xs := by
          rcases hpts : (generateJointTrajectoryKDLLoop ik joint_limits
              sampling_time false false t isol (isol.map fun _ => 0)
              (r2 :: rs)).2.1 with _ | ⟨x, xs⟩
          · rw [hpts] at hlen; simp at hlen
          · exact ⟨x, xs, rfl⟩
        refine ⟨q, ?_, hv, ha⟩
        rw [hx] at hl
        rw [hx, List.getLast?_cons_cons]
        exact hl

/-- Witness for claim C2: a successful two-sample KDL run with a
constant IK solution; its first and last waypoints are at rest. -/
theorem claim_C2_witness :
    (∃ pfirst, (generateJointTrajectoryKDL (fun _ _ => some [0]) [] 1 2
        [0]).2.1.head? = some pfirst ∧
      (∀ v ∈ pfirst.velocities, v = 0) ∧ (∀ a ∈ pfirst.accelerations, a = 0)) ∧
    (∃ plast, (generateJointTrajectoryKDL (fun _ _ => some [0]) [] 1 2
        [0]).2.1.getLast? = some plast ∧
      (∀ v ∈ plast.velocities, v = 0) ∧ (∀ a ∈ plast.accelerations, a = 0)) :=
  claim_C2 (fun _ _ => some [0]) [] 1 2 [0] (by
    have hc : (⌈((1 : ℚ) - sampleEpsilon) / 2⌉) = 1 := by
      rw [Int.ceil_eq_iff]
      constructor <;> norm_num [sampleEpsilon]
    have hts : timeSamples 1 2 = [0, 1] := by
      rw [timeSamples_eq _ _ (by norm_num), hc]
      rw [show ((1 : ℤ)).toNat = 1 from rfl]
      norm_num [List.range_succ]
    have hgen : generateJointTrajectoryKDL (fun _ _ => some [0]) [] 1 2 [0]
        = generateJointTrajectoryKDLLoop (fun _ _ => some [0]) [] 2
            (([0, 1] : List ℚ).length == 1) true 0 [0]
            (([0] : Joints).map fun _ => 0) [0, 1] := by
      simp only [generateJointTrajectoryKDL, hts]
    rw [hgen]
    with_unfolding_all decide)

end Pilz

namespace Pilz

/-- Unfolding of the CartesianTrajectory loop at the first waypoint
(`i == 0`): the current duration is the waypoint's absolute time and the
previous duration is set equal to it. -/
theorem cartLoop_first_step {Pose : Type} (ik : Pose → Joints → Option Joints)
    (joint_limits : List JointLimits) (pt : CartesianTrajectoryPoint Pose)
    (rest : List (CartesianTrajectoryPoint Pose)) (t_prev duration_last : ℚ)
    (sol vel isol : Joints) (hik : ik pt.pose sol = some isol)
    (hv : ¬ verifySampleJointLimits sol vel isol pt.time_from_start
      pt.time_from_start joint_limits = false) :
    generateJointTrajectoryCartLoop ik joint_limits true t_prev duration_last
        sol vel (pt :: rest)
      = genStep
          { time_from_start := pt.time_from_start, positions := isol
            velocities := (cartVelAcc isol sol vel pt.time_from_start
              pt.time_from_start).map Prod.fst
            accelerations := (cartVelAcc isol sol vel pt.time_from_start
              pt.time_from_start).map Prod.snd }
          (generateJointTrajectoryCartLoop ik joint_limits false
            pt.time_from_start pt.time_from_start isol
            ((cartVelAcc isol sol vel pt.time_from_start
              pt.time_from_start).map Prod.fst) rest) := by
  conv =>
    lhs
    rw [generateJointTrajectoryCartLoop.eq_def]
  simp only [hik, eq_self_iff_true, if_true]
  rw [if_neg hv]

/-- Unfolding of the CartesianTrajectory loop at a non-first waypoint:
the current duration is the difference of adjacent waypoint times and
the previous duration is the one carried along. -/
theorem cartLoop_step {Pose : Type} (ik : Pose → Joints → Option Joints)
    (joint_limits : List JointLimits) (pt : CartesianTrajectoryPoint Pose)
    (rest : List (CartesianTrajectoryPoint Pose)) (t_prev duration_last : ℚ)
    (sol vel isol : Joints) (hik : ik pt.pose sol = some isol)
    (hv : ¬ verifySampleJointLimits sol vel isol duration_last
      (pt.time_from_start - t_prev) joint_limits = false) :
    generateJointTrajectoryCartLoop ik joint_limits false t_prev duration_last
        sol vel (pt :: rest)
      = genStep
          { time_from_start := pt.time_from_start, positions := isol
            velocities := (cartVelAcc isol sol vel
              (pt.time_from_start - t_prev) duration_last).map Prod.fst
            accelerations := (cartVelAcc isol sol vel
              (pt.time_from_start - t_prev) duration_last).map Prod.snd }
          (generateJointTrajectoryCartLoop ik joint_limits false
            pt.time_from_start (pt.time_from_start - t_prev) isol
            ((cartVelAcc isol sol vel (pt.time_from_start - t_prev)
              duration_last).map Prod.fst) rest) := by
  conv =>
    lhs
    rw [generateJointTrajectoryCartLoop.eq_def]
  simp only [hik, Bool.false_eq_true, if_false]
  rw [if_neg hv]

/-- Success invariant of the CartesianTrajectory loop relative to the
two previously emitted points `p` and `q` (with `q`'s positions and
velocities the loop's seed and last-velocity arguments, and the carried
previous duration equal to `q.time - p.time`): every three consecutive
points of `p :: q :: emitted` satisfy the `cartVelAcc` finite-difference
relation. -/
theorem cartLoop_shape {Pose : Type} (ik : Pose → Joints → Option Joints)
    (joint_limits : List JointLimits) :
    ∀ (rest : List (CartesianTrajectoryPoint Pose))
      (p q : JointTrajectoryPoint) (duration_last : ℚ),
      duration_last = q.time_from_start - p.time_from_start →
      (generateJointTrajectoryCartLoop ik joint_limits false q.time_from_start
          duration_last q.positions q.velocities rest).1 = true →
      Triplewise cartFiniteDiffRel
        (p :: q :: (generateJointTrajectoryCartLoop ik joint_limits false
          q.time_from_start duration_last q.positions q.velocities rest).2.1) := by
  intro rest
  induction rest with
  | nil =>
    intro p q duration_last hdl h
    simp [generateJointTrajectoryCartLoop, Triplewise]
  | cons pt rest' ih =>
    intro p q duration_last hdl h
    subst hdl
    cases hik : ik pt.pose q.positions with
    | none => simp [generateJointTrajectoryCartLoop, hik] at h
    | some isol =>
      by_cases hv : verifySampleJointLimits q.positions q.velocities isol
          (q.time_from_start - p.time_from_start)
          (pt.time_from_start - q.time_from_start) joint_limits = false
      · simp [generateJointTrajectoryCartLoop, hik, hv] at h
      · rw [cartLoop_step _ _ _ _ _ _ _ _ isol hik hv] at h ⊢
        have hr := h
        rw [genStep_fst] at hr
        rw [genStep_of_success _ _ hr]
        exact ⟨⟨rfl, rfl⟩,
          ih q { time_from_start := pt.time_from_start, positions := isol
                 velocities := (cartVelAcc isol q.positions q.velocities
                   (pt.time_from_start - q.time_from_start)
                   (q.time_from_start - p.time_from_start)).map Prod.fst
                 accelerations := (cartVelAcc isol q.positions q.velocities
                   (pt.time_from_start - q.time_from_start)
                   (q.time_from_start - p.time_from_start)).map Prod.snd }
            (pt.time_from_start - q.time_from_start) rfl hr⟩

end Pilz

namespace Pilz

/-- Counterexample to claim C4 as stated: in the KDL overload an interior
sample's stored velocity is not `Δposition/Δtime`.  With IK solution `[t]`
at time `t`, duration `1/4` and sampling time `1/10`, the interior
waypoint at `t = 1/10` stores velocity `2` and acceleration `20`,
while `Δposition/Δtime = (1/10 - 0)/(1/10 - 0) = 1 ≠ 2`. -/
theorem claim_C4_counterexample :
    (generateJointTrajectoryKDL (fun t _ => some [t])
        [⟨100, false, 0, false, 0⟩] (1 / 4) (1 / 10) [0]).1 = true ∧
    (generateJointTrajectoryKDL (fun t _ => some [t])
        [⟨100, false, 0, false, 0⟩] (1 / 4) (1 / 10) [0]).2.1.length = 4 ∧
    (generateJointTrajectoryKDL (fun t _ => some [t])
        [⟨100, false, 0, false, 0⟩] (1 / 4) (1 / 10) [0]).2.1.getD 0 default
      = { time_from_start := 0, positions := [0], velocities := [0]
          accelerations := [0] } ∧
    (generateJointTrajectoryKDL (fun t _ => some [t])
        [⟨100, false, 0, false, 0⟩] (1 / 4) (1 / 10) [0]).2.1.getD 1 default
      = { time_from_start := 1 / 10, positions := [1 / 10], velocities := [2]
          accelerations := [20] } ∧
    ¬ (((1 / 10 : ℚ) - 0) / ((1 / 10 : ℚ) - 0) = 2) := by
  have hc : (⌈((1 : ℚ) / 4 - sampleEpsilon) / (1 / 10)⌉) = 3 := by
    rw [Int.ceil_eq_iff]
    constructor <;> norm_num [sampleEpsilon]
  have hts : timeSamples (1 / 4) (1 / 10) = [0, 1 / 10, 1 / 5, 1 / 4] := by
    rw [timeSamples_eq _ _ (by norm_num), hc]
    rw [show ((3 : ℤ)).toNat = 3 from rfl]
    norm_num [List.range_succ]
  have hgen : generateJointTrajectoryKDL (fun t _ => some [t])
      [⟨100, false, 0, false, 0⟩] (1 / 4) (1 / 10) [0]
      = generateJointTrajectoryKDLLoop (fun t _ => some [t])
          [⟨100, false, 0, false, 0⟩] (1 / 10)
          (([0, 1 / 10, 1 / 5, 1 / 4] : List ℚ).length == 1) true 0 [0]
          (([0] : Joints).map fun _ => 0) [0, 1 / 10, 1 / 5, 1 / 4] := by
    simp only [generateJointTrajectoryKDL, hts]
  refine ⟨?_, ?_, ?_, ?_, by norm_num⟩ <;> rw [hgen] <;> with_unfolding_all decide

/-- Claim C4 (amended per the code's two distinct formulas, cf. the
design note in the spec): in the KDL overload, every interior waypoint
`q` with predecessor `p` satisfies
`acceleration = 2*(Δposition - p.velocity*s)/s^2` and
`velocity = p.velocity + acceleration*s` (per joint, with `s` the
sampling time) — the claimed acceleration formula holds but the claimed
velocity formula does not; in the CartesianTrajectory overload, every
waypoint `r` with predecessors `q`, `p` (the start state acting as the
waypoint before the first) satisfies
`velocity = Δposition/(r.time - q.time)` and
`acceleration = 2*(velocity - q.velocity)/((r.time - q.time) + (q.time - p.time))`
— the claimed velocity formula holds but the claimed acceleration
formula (with `Δtime^2` in the denominator) does not. -/
theorem claim_C4 :
    (∀ (ik : ℚ → Joints → Option Joints) (joint_limits : List JointLimits)
       (duration sampling_time : ℚ) (initial_joint_position : Joints),
      (generateJointTrajectoryKDL ik joint_limits duration sampling_time
        initial_joint_position).1 = true →
      List.Chain' (kdlFiniteDiffRel sampling_time)
        ((generateJointTrajectoryKDL ik joint_limits duration sampling_time
          initial_joint_position).2.1.dropLast)) ∧
    (∀ (Pose : Type) (ik : Pose → Joints → Option Joints)
       (joint_limits : List JointLimits)
       (trajectory : List (CartesianTrajectoryPoint Pose))
       (initial_joint_position initial_joint_velocity : Joints),
      (generateJointTrajectoryCart ik joint_limits trajectory
        initial_joint_position initial_joint_velocity).1 = true →
      Triplewise cartFiniteDiffRel
        (cartStartPoint initial_joint_position initial_joint_velocity ::
          (generateJointTrajectoryCart ik joint_limits trajectory
            initial_joint_position initial_joint_velocity).2.1)) := by
  constructor
  · intro ik joint_limits duration sampling_time initial_joint_position hsucc
    have hne : timeSamples duration sampling_time ≠ [] := by simp [timeSamples]
    obtain ⟨t, rest, hts⟩ : ∃ t rest,
        timeSamples duration sampling_time = t :: rest := by
      rcases h : timeSamples duration sampling_time with _ | ⟨t, rest⟩
      · exact absurd h hne
      · exact ⟨t, rest, rfl⟩
    have hgen : generateJointTrajectoryKDL ik joint_limits duration sampling_time
        initial_joint_position
        = generateJointTrajectoryKDLLoop ik joint_limits sampling_time
            ((t :: rest).length == 1) true 0 initial_joint_position
            (initial_joint_position.map fun _ => 0) (t :: rest) := by
      simp only [generateJointTrajectoryKDL, hts]
    rw [hgen] at hsucc ⊢
    cases hik : ik t initial_joint_position with
    | none => simp [generateJointTrajectoryKDLLoop, hik] at hsucc
    | some isol =>
      cases rest with
      | nil =>
        rw [kdlLoop_first_step _ _ _ _ _ _ _ _ _ isol hik] at hsucc ⊢
        rw [show generateJointTrajectoryKDLLoop ik joint_limits sampling_time
            (([t] : List ℚ).length == 1) false t isol (isol.map fun _ => 0) []
            = (true, [], MoveItErrorCode.SUCCESS) from rfl] at hsucc ⊢
        simp [genStep]
      | cons r2 rs =>
        have hso : ((t :: r2 :: rs).length == 1) = false := by simp
        rw [hso] at hsucc ⊢
        rw [kdlLoop_first_step _ _ _ _ _ _ _ _ _ isol hik] at hsucc ⊢
        have hr := hsucc
        rw [genStep_fst] at hr
        obtain ⟨hlen, hchain, hlast⟩ := kdlLoop_shape ik joint_limits
          sampling_time (r2 :: rs) t
          { time_from_start := t, positions := isol
            velocities := isol.map fun _ => 0
            accelerations := isol.map fun _ => 0 } hr
        rw [genStep_of_success _ _ hr]
        exact hchain
  · intro Pose ik joint_limits trajectory initial_joint_position
      initial_joint_velocity hsucc
    simp only [generateJointTrajectoryCart] at hsucc ⊢
    cases trajectory with
    | nil => simp [generateJointTrajectoryCartLoop, Triplewise]
    | cons pt rest =>
      cases hik : ik pt.pose initial_joint_position with
      | none => simp [generateJointTrajectoryCartLoop, hik] at hsucc
      | some isol =>
        by_cases hv : verifySampleJointLimits initial_joint_position
            initial_joint_velocity isol pt.time_from_start pt.time_from_start
            joint_limits = false
        · simp [generateJointTrajectoryCartLoop, hik, hv] at hsucc
        · rw [cartLoop_first_step _ _ _ _ _ _ _ _ isol hik hv] at hsucc ⊢
          have hr := hsucc
          rw [genStep_fst] at hr
          rw [genStep_of_success _ _ hr]
          exact cartLoop_shape ik joint_limits rest
            (cartStartPoint initial_joint_position initial_joint_velocity)
            { time_from_start := pt.time_from_start, positions := isol
              velocities := (cartVelAcc isol initial_joint_position
                initial_joint_velocity pt.time_from_start
                pt.time_from_start).map Prod.fst
              accelerations := (cartVelAcc isol initial_joint_position
                initial_joint_velocity pt.time_from_start
                pt.time_from_start).map Prod.snd }
            pt.time_from_start (by simp [cartStartPoint]) hr

/-- Witness for claim C4: the finite-difference relations hold along a
successful KDL run and a successful CartesianTrajectory run. -/
theorem claim_C4_witness :
    List.Chain' (kdlFiniteDiffRel 2)
      ((generateJointTrajectoryKDL (fun _ _ => some [0]) [] 1 2
        [0]).2.1.dropLast) ∧
    Triplewise cartFiniteDiffRel
      (cartStartPoint [0] [0] ::
        (generateJointTrajectoryCart (fun (_ : Unit) _ => some [1])
          [⟨10, false, 0, false, 0⟩] [⟨(), 1⟩] [0] [0]).2.1) :=
  ⟨claim_C4.1 (fun _ _ => some [0]) [] 1 2 [0] (by
      have hc : (⌈((1 : ℚ) - sampleEpsilon) / 2⌉) = 1 := by
        rw [Int.ceil_eq_iff]
        constructor <;> norm_num [sampleEpsilon]
      have hts : timeSamples 1 2 = [0, 1] := by
        rw [timeSamples_eq _ _ (by norm_num), hc]
        rw [show ((1 : ℤ)).toNat = 1 from rfl]
        norm_num [List.range_succ]
      have hgen : generateJointTrajectoryKDL (fun _ _ => some [0]) [] 1 2 [0]
          = generateJointTrajectoryKDLLoop (fun _ _ => some [0]) [] 2
              (([0, 1] : List ℚ).length == 1) true 0 [0]
              (([0] : Joints).map fun _ => 0) [0, 1] := by
        simp only [generateJointTrajectoryKDL, hts]
      rw [hgen]
      with_unfolding_all decide),
   claim_C4.2 Unit (fun _ _ => some [1]) [⟨10, false, 0, false, 0⟩]
     [⟨(), 1⟩] [0] [0] (by with_unfolding_all decide)⟩

end Pilz
